import Mathlib

/-!
Verification of the market-basket analysis pipeline
(`market_basket_app.py`): the Loader (`load_data`) and the Rule Miner
(`generate_rules`).

The embedding models a pandas DataFrame of transaction records as a
`List` of records; missing values (NaN) in the raw CSV columns are
modelled with `Option`.  All support / confidence / lift arithmetic is
carried out in exact rational arithmetic (`ℚ`) in place of the source's
floating point; every comparison the claims speak about is a direct
comparison of these computed values, so the inequalities are preserved
structurally.  The external mining library calls (`fpgrowth`,
`association_rules` from mlxtend) are modelled extensionally from their
documented contract, which the spec also states: `fpgrowth` returns
every non-empty itemset whose support meets the threshold (any
algorithm with these support semantics is declared an acceptable
substitution), and `association_rules` enumerates all disjoint
non-empty antecedent/consequent partitions of each frequent itemset and
keeps those whose metric (here: lift) meets `min_threshold`.
-/

/-- Row of the raw CSV as parsed by `pd.read_csv` with
`dtype={InvoiceNo: str, Description: str, Quantity: int32, Country: category}`.
`InvoiceNo` and `Description` are `Option`-valued: `none` models a NaN
(missing) cell, which is what `dropna` removes. -/
structure RawRecord where
  invoiceNo : Option String
  description : Option String
  quantity : Int
  country : String
deriving DecidableEq

/-- Cleaned transaction record, the row type of the DataFrame returned
by `load_data`. -/
structure Record where
  invoiceNo : String
  description : String
  quantity : Int
  country : String
deriving DecidableEq

/-- Embedding of `load_data`: the source is `some rows` when the CSV
file exists (rows as parsed) and `none` when reading raises
`FileNotFoundError`, in which case the function returns the `None`
sentinel.  Cleaning drops rows whose `InvoiceNo` or `Description` is
missing (`dropna`), strips surrounding whitespace from `Description`,
and removes rows whose `InvoiceNo` starts with `C` (cancellations). -/
def load_data (source : Option (List RawRecord)) : Option (List Record) :=
  match source with
  | none => none
  | some rows =>
      let dropped := rows.filterMap (fun r =>
        match r.invoiceNo, r.description with
        | some inv, some desc => some (Record.mk inv desc.trim r.quantity r.country)
        | _, _ => none)
      some (dropped.filter (fun r => !(r.invoiceNo.startsWith "C")))

/-- Step 1 of `generate_rules`: `df[df['Country'] == country]`. -/
def scopeCountry (df : List Record) (country : String) : List Record :=
  df.filter (fun r => decide (r.country = country))

/-- Step 2 of `generate_rules`:
`subset.groupby('InvoiceNo')['Description'].apply(list).tolist()` —
one list of item descriptions per distinct invoice.  (pandas sorts the
group keys; the claims are insensitive to transaction order, so the
groups are listed in first-occurrence order here.) -/
def transactionize (subset : List Record) : List (List String) :=
  ((subset.map (fun r => r.invoiceNo)).dedup).map
    (fun inv => (subset.filter (fun r => decide (r.invoiceNo = inv))).map
      (fun r => r.description))

/-- Support of an itemset: the fraction of transactions containing
every item of the itemset.  This is the value mlxtend computes from the
boolean presence matrix built by `TransactionEncoder`. -/
def support (transactions : List (List String)) (itemset : List String) : ℚ :=
  ((transactions.filter (fun t => itemset.all (fun i => decide (i ∈ t)))).length : ℚ)
    / (transactions.length : ℚ)

/-- Column set of the boolean presence matrix: the distinct items
occurring in the scoped transactions (`TransactionEncoder.columns_`). -/
def itemUniverse (transactions : List (List String)) : List String :=
  transactions.flatten.dedup

/-- Extensional model of `mlxtend.frequent_patterns.fpgrowth` with
`use_colnames=True`: all non-empty itemsets over the encoded columns
whose support meets `min_support`.  (The spec fixes this contract and
declares any algorithm with the same support semantics an acceptable
substitution for the FP-growth implementation.) -/
def fpgrowth (transactions : List (List String)) (min_support : ℚ) :
    List (List String) :=
  (itemUniverse transactions).sublists.filter
    (fun s => !s.isEmpty && decide (min_support ≤ support transactions s))

/-- Row of the mlxtend `association_rules` result restricted to the
columns the app uses. -/
structure Rule where
  antecedents : List String
  consequents : List String
  support : ℚ
  confidence : ℚ
  lift : ℚ
deriving DecidableEq

/-- Candidate rule for one antecedent/consequent partition of a
frequent itemset, with the mlxtend metric formulas:
support = P(itemset), confidence = support / P(antecedent),
lift = confidence / P(consequent). -/
def mkRule (transactions : List (List String)) (itemset antecedent : List String) :
    Rule :=
  let consequent := itemset.filter (fun x => !(decide (x ∈ antecedent)))
  let sup := support transactions itemset
  let conf := sup / support transactions antecedent
  { antecedents := antecedent
    consequents := consequent
    support := sup
    confidence := conf
    lift := conf / support transactions consequent }

/-- All candidate rules: for every frequent itemset, every partition
into a non-empty antecedent and a non-empty consequent (only itemsets
of size at least two contribute). -/
def candidateRules (transactions : List (List String))
    (freq : List (List String)) : List Rule :=
  freq.flatMap (fun s =>
    (s.sublists.filter (fun a => !a.isEmpty && decide (a.length < s.length))).map
      (mkRule transactions s))

/-- Extensional model of `mlxtend.frequent_patterns.association_rules`
with `metric="lift"`: keep the candidate rules whose lift meets
`min_threshold`. -/
def association_rules (transactions : List (List String))
    (freq : List (List String)) (min_threshold : ℚ) : List Rule :=
  (candidateRules transactions freq).filter
    (fun r => decide (min_threshold ≤ r.lift))

/-- Row of the final rule table: the `association_rules` columns plus
the display-string columns `antecedents_str` / `consequents_str` added
by `generate_rules`. -/
structure RuleRow where
  antecedents : List String
  consequents : List String
  antecedents_str : String
  consequents_str : String
  support : ℚ
  confidence : ℚ
  lift : ℚ
deriving DecidableEq

/-- Display-string columns:
`rules['antecedents'].apply(lambda x: ', '.join(list(x)))` and the same
for consequents. -/
def addDisplay (r : Rule) : RuleRow :=
  { antecedents := r.antecedents
    consequents := r.consequents
    antecedents_str := String.intercalate ", " r.antecedents
    consequents_str := String.intercalate ", " r.consequents
    support := r.support
    confidence := r.confidence
    lift := r.lift }

/-- Order used by `rules.sort_values(['lift','confidence'], ascending=[False,False])`:
lift descending, ties broken by confidence descending. -/
def ruleOrd (r1 r2 : RuleRow) : Prop :=
  r2.lift < r1.lift ∨ (r1.lift = r2.lift ∧ r2.confidence ≤ r1.confidence)

instance : DecidableRel ruleOrd := fun r1 r2 => by
  unfold ruleOrd; infer_instance

instance : IsTotal RuleRow ruleOrd where
  total r1 r2 := by
    unfold ruleOrd
    rcases lt_trichotomy r1.lift r2.lift with h | h | h
    · exact Or.inr (Or.inl h)
    · rcases le_total r2.confidence r1.confidence with hc | hc
      · exact Or.inl (Or.inr ⟨h, hc⟩)
      · exact Or.inr (Or.inr ⟨h.symm, hc⟩)
    · exact Or.inl (Or.inl h)

instance : IsTrans RuleRow ruleOrd where
  trans r1 r2 r3 h12 h23 := by
    unfold ruleOrd at *
    rcases h12 with h12 | ⟨e12, c12⟩
    · rcases h23 with h23 | ⟨e23, c23⟩
      · exact Or.inl (h23.trans h12)
      · exact Or.inl (e23 ▸ h12)
    · rcases h23 with h23 | ⟨e23, c23⟩
      · exact Or.inl (e12 ▸ h23)
      · exact Or.inr ⟨e12.trans e23, c23.trans c12⟩

/-- Embedding of `generate_rules`.  The `min_support` validation is the
one performed inside the delegated `fpgrowth` call (mlxtend raises
`ValueError` for a non-positive `min_support`); `generate_rules` itself
performs no input validation, so every other configuration flows
through the pipeline: scope to the country, group into transactions,
mine frequent itemsets, short-circuit to an empty table when none
qualify, otherwise derive rules at `min_lift`, filter by confidence,
attach display strings and sort. -/
def generate_rules (df : List Record) (country : String)
    (min_sup min_conf min_lift : ℚ) : Except String (List RuleRow) :=
  if min_sup ≤ 0 then
    Except.error "min_support must be a positive number within the interval (0, 1]"
  else if (fpgrowth (transactionize (scopeCountry df country)) min_sup).isEmpty then
    Except.ok []
  else
    Except.ok (List.insertionSort ruleOrd
      (((association_rules (transactionize (scopeCountry df country))
            (fpgrowth (transactionize (scopeCountry df country)) min_sup)
            min_lift).filter
          (fun r => decide (min_conf ≤ r.confidence))).map addDisplay))

/-- Sample cleaned record set used by the concrete witnesses: three
invoices in France with baskets {A, B}, {A, B}, {A, C}. -/
def sampleDf : List Record :=
  [⟨"536365", "A", 6, "France"⟩, ⟨"536365", "B", 2, "France"⟩,
   ⟨"536366", "A", 1, "France"⟩, ⟨"536366", "B", 3, "France"⟩,
   ⟨"536367", "A", 4, "France"⟩, ⟨"536367", "C", 5, "France"⟩]

/-- Sample record set in which every itemset has support at most 1/2:
two invoices with disjoint single-item baskets. -/
def sparseDf : List Record :=
  [⟨"536370", "X", 1, "France"⟩, ⟨"536371", "Y", 1, "France"⟩]

/-- The two rule-table rows `generate_rules` produces on `sampleDf` at
country France with thresholds (1/2, 1/2, 1). -/
def rowBA : RuleRow := ⟨["B"], ["A"], "B", "A", 2/3, 1, 1⟩

/-- Companion row to `rowBA`; see there. -/
def rowAB : RuleRow := ⟨["A"], ["B"], "A", "B", 2/3, 2/3, 1⟩

/-- Sample raw CSV rows for the Loader witnesses: one row needing a
trim, one cancellation, one missing invoice, one missing description,
one already clean. -/
def sampleRaw : List RawRecord :=
  [⟨some "536365", some " WHITE HANGING HEART ", 6, "United Kingdom"⟩,
   ⟨some "C536379", some "Discount", -1, "United Kingdom"⟩,
   ⟨none, some "POSTAGE", 3, "France"⟩,
   ⟨some "536380", none, 2, "France"⟩,
   ⟨some "536381", some "RED WOOLLY HOTTIE", 5, "France"⟩]

/-- The cleaned record set `load_data` produces on `some sampleRaw`. -/
def cleanedSample : List Record :=
  [⟨"536365", "WHITE HANGING HEART", 6, "United Kingdom"⟩,
   ⟨"536381", "RED WOOLLY HOTTIE", 5, "France"⟩]

/-! ## General lemmas about the pipeline -/

theorem flatMap_sublist_of_sublist {α β : Type} (f : α → List β)
    {l₁ l₂ : List α} (h : l₁.Sublist l₂) : (l₁.flatMap f).Sublist (l₂.flatMap f) := by
  induction h with
  | slnil => exact List.Sublist.refl _
  | cons a h ih =>
      rw [List.flatMap_cons]
      exact ih.trans (List.sublist_append_right (f a) _)
  | cons₂ a h ih =>
      rw [List.flatMap_cons, List.flatMap_cons]
      exact ih.append_left (f a)

theorem support_congr (tx : List (List String)) (I J : List String)
    (h : ∀ x, x ∈ I ↔ x ∈ J) : support tx I = support tx J := by
  unfold support
  rw [List.filter_congr (fun t _ => ?_)]
  rw [Bool.eq_iff_iff]
  simp only [List.all_eq_true, decide_eq_true_eq]
  constructor
  · intro ha x hx
    exact ha x ((h x).mpr hx)
  · intro ha x hx
    exact ha x ((h x).mp hx)

theorem fpgrowth_anti (tx : List (List String)) {s s' : ℚ} (h : s ≤ s') :
    (fpgrowth tx s').Sublist (fpgrowth tx s) := by
  unfold fpgrowth
  apply List.monotone_filter_right
  intro a ha
  rw [Bool.and_eq_true] at ha ⊢
  exact ⟨ha.1, decide_eq_true (le_trans h (of_decide_eq_true ha.2))⟩

theorem candidateRules_mono (tx : List (List String))
    {f1 f2 : List (List String)} (h : f1.Sublist f2) :
    (candidateRules tx f1).Sublist (candidateRules tx f2) :=
  flatMap_sublist_of_sublist _ h

theorem scopeCountry_eq_nil (df : List Record) (c : String)
    (h : c ∉ df.map (fun r => r.country)) : scopeCountry df c = [] := by
  unfold scopeCountry
  rw [List.filter_eq_nil_iff]
  intro r hr
  simp only [decide_eq_true_eq]
  intro hrc
  exact h (List.mem_map.mpr ⟨r, hr, hrc⟩)

theorem generate_rules_of_absent_country (df : List Record) (c : String)
    (s cf l : ℚ) (habs : c ∉ df.map (fun r => r.country)) (hs : 0 < s) :
    generate_rules df c s cf l = Except.ok [] := by
  have h0 : scopeCountry df c = [] := scopeCountry_eq_nil df c habs
  unfold generate_rules
  rw [if_neg (not_le.mpr hs), h0]
  rfl

/-! ## The claims -/

/-- Claim C9: when the transaction-log source is absent, `load_data` returns
the `None` sentinel, and it returns the sentinel only in that case —
the caller's main control path never sees a raised error. -/
theorem load_data_none_iff_source_absent (source : Option (List RawRecord)) :
    load_data source = none ↔ source = none := by
  cases source <;> simp [load_data]

/-- Claim C8 counterexample: a raw row whose description is whitespace-only
survives cleaning with an empty `description`, so not every record of
the cleaned set has a non-empty item description. -/
theorem load_data_empty_description_cex :
    ∃ out, load_data (some [⟨some "536365", some "   ", 6, "France"⟩]) = some out ∧
      ∃ r ∈ out, r.description = "" :=
  ⟨[⟨"536365", "", 6, "France"⟩], by with_unfolding_all rfl,
   ⟨"536365", "", 6, "France"⟩, List.mem_singleton.mpr rfl, rfl⟩

/-- Claim C8 amended: only the itemDescription non-emptiness had to be
weakened.  For every parsed input table, every record of the cleaned
set has a non-empty invoiceId and no reserved cancellation prefix `C`
on it, and its description is the whitespace-trimmed source description
— present (non-missing) in the source row but possibly empty when the
source value was whitespace-only.  The hypothesis `hcsv` is the
`pd.read_csv` parsing invariant with default NA handling: an empty
`InvoiceNo` cell is parsed as NaN (modelled `none`), never as the empty
string, so a present invoiceId is a non-empty string and `load_data`
never strips it. -/
theorem load_data_clean_invariant (rows : List RawRecord) (out : List Record)
    (hcsv : ∀ raw ∈ rows, raw.invoiceNo ≠ some "")
    (h : load_data (some rows) = some out) :
    ∀ r ∈ out, r.invoiceNo ≠ "" ∧ r.invoiceNo.startsWith "C" = false ∧
      ∃ raw ∈ rows, raw.invoiceNo = some r.invoiceNo ∧
        ∃ d, raw.description = some d ∧ r.description = d.trim ∧
          raw.quantity = r.quantity ∧ raw.country = r.country := by
  intro r hr
  unfold load_data at h
  injection h with h
  subst h
  obtain ⟨hr', hC⟩ := List.mem_filter.mp hr
  obtain ⟨raw, hraw, hf⟩ := List.mem_filterMap.mp hr'
  cases hinv : raw.invoiceNo with
  | none =>
      rw [hinv] at hf
      exact absurd hf (by simp)
  | some inv =>
      cases hdesc : raw.description with
      | none =>
          rw [hinv, hdesc] at hf
          exact absurd hf (by simp)
      | some d =>
          rw [hinv, hdesc] at hf
          have hrec : Record.mk inv d.trim raw.quantity raw.country = r :=
            Option.some.inj hf
          have hinvne : r.invoiceNo ≠ "" := by
            intro hcon
            rw [← hrec] at hcon
            have hcon' : inv = "" := hcon
            exact hcsv raw hraw (by rw [hinv, hcon'])
          refine ⟨hinvne, by simpa using hC, raw, hraw, ?_, d, hdesc, ?_, ?_, ?_⟩
          · rw [hinv, ← hrec]
          · rw [← hrec]
          · rw [← hrec]
          · rw [← hrec]

/-- Closed witness for `load_data_clean_invariant` at `sampleRaw`,
instantiated at the first cleaned record. -/
theorem load_data_clean_invariant_witness :
    (Record.mk "536365" "WHITE HANGING HEART" 6 "United Kingdom").invoiceNo ≠ "" ∧
      (Record.mk "536365" "WHITE HANGING HEART" 6 "United Kingdom").invoiceNo.startsWith "C" = false ∧
      ∃ raw ∈ sampleRaw,
        raw.invoiceNo = some (Record.mk "536365" "WHITE HANGING HEART" 6 "United Kingdom").invoiceNo ∧
        ∃ d, raw.description = some d ∧
          (Record.mk "536365" "WHITE HANGING HEART" 6 "United Kingdom").description = d.trim ∧
          raw.quantity = (Record.mk "536365" "WHITE HANGING HEART" 6 "United Kingdom").quantity ∧
          raw.country = (Record.mk "536365" "WHITE HANGING HEART" 6 "United Kingdom").country :=
  load_data_clean_invariant sampleRaw cleanedSample (by decide)
    (by with_unfolding_all rfl)
    ⟨"536365", "WHITE HANGING HEART", 6, "United Kingdom"⟩
    (List.mem_cons_self _ _)

/-- Claim C6 counterexample: `generate_rules` performs no country validation.
Requesting a country absent from the record set's country column raises
no error: the call completes and returns an (empty) ordinary rule
table. -/
theorem generate_rules_no_country_validation :
    "Atlantis" ∉ sampleDf.map (fun r => r.country) ∧
      generate_rules sampleDf "Atlantis" (1/2) (1/2) 1 = Except.ok [] :=
  ⟨by decide, by with_unfolding_all rfl⟩

/-- Claim C6 amended: requesting a country absent from the record set is not
detected as a validation error; instead the country filter produces the
empty subset (so the miner does not fall back to computing over the
full dataset) and the returned rule table is empty. -/
theorem generate_rules_absent_country_no_fallback (df : List Record)
    (c : String) (s cf l : ℚ) (habs : c ∉ df.map (fun r => r.country))
    (hs : 0 < s) :
    scopeCountry df c = [] ∧ generate_rules df c s cf l = Except.ok [] :=
  ⟨scopeCountry_eq_nil df c habs, generate_rules_of_absent_country df c s cf l habs hs⟩

/-- Closed witness for `generate_rules_absent_country_no_fallback`. -/
theorem generate_rules_absent_country_no_fallback_witness :
    scopeCountry sampleDf "Narnia" = [] ∧
      generate_rules sampleDf "Narnia" (1/5) (3/5) 2 = Except.ok [] :=
  generate_rules_absent_country_no_fallback sampleDf "Narnia" (1/5) (3/5) 2
    (by decide) (by norm_num)

/-- Claim C10: with a valid threshold triple, a country value that does not
occur in the record set's country column yields no error: the country
filter produces an empty subset, no frequent itemsets are found, and
the empty-itemset short-circuit returns an empty rule table. -/
theorem generate_rules_unknown_country_empty (df : List Record) (c : String)
    (s cf l : ℚ) (habs : c ∉ df.map (fun r => r.country))
    (hs0 : 0 < s) (hs1 : s < 1) (hc0 : 0 < cf) (hc1 : cf < 1) (hl0 : 0 ≤ l) :
    generate_rules df c s cf l = Except.ok [] :=
  generate_rules_of_absent_country df c s cf l habs hs0

/-- Closed witness for `generate_rules_unknown_country_empty`. -/
theorem generate_rules_unknown_country_empty_witness :
    generate_rules sampleDf "Atlantis" (1/2) (1/2) 1 = Except.ok [] :=
  generate_rules_unknown_country_empty sampleDf "Atlantis" (1/2) (1/2) 1
    (by decide) (by norm_num) (by norm_num) (by norm_num) (by norm_num)
    (by norm_num)

/-- Claim C3: when no itemset reaches `min_sup` (the frequent-itemset list is
empty), `generate_rules` short-circuits to the empty rule table; the
rule-derivation step (`association_rules`) sits in the untaken `else`
branch, so it is never invoked. -/
theorem generate_rules_short_circuit (df : List Record) (c : String)
    (s cf l : ℚ) (hs : 0 < s)
    (hfreq : fpgrowth (transactionize (scopeCountry df c)) s = []) :
    generate_rules df c s cf l = Except.ok [] := by
  unfold generate_rules
  rw [if_neg (not_le.mpr hs), hfreq]
  rfl

/-- Closed witness for `generate_rules_short_circuit`: on `sparseDf`
every itemset has support at most 1/2 < 3/4. -/
theorem generate_rules_short_circuit_witness :
    generate_rules sparseDf "France" (3/4) (1/2) 1 = Except.ok [] :=
  generate_rules_short_circuit sparseDf "France" (3/4) (1/2) 1
    (by norm_num) (by with_unfolding_all rfl)

/-- Claim C5: the Rule Miner is deterministic — the returned table, including
row order and the comma-joined display strings (fields of `RuleRow`),
is a pure function of the record set, the country and the three
thresholds: two calls on identical inputs return identical tables. -/
theorem generate_rules_deterministic (df df' : List Record) (c c' : String)
    (s s' cf cf' l l' : ℚ) (hdf : df = df') (hc : c = c') (hs : s = s')
    (hcf : cf = cf') (hl : l = l') :
    generate_rules df c s cf l = generate_rules df' c' s' cf' l' := by
  subst hdf hc hs hcf hl
  rfl

/-- Closed witness for `generate_rules_deterministic`. -/
theorem generate_rules_deterministic_witness :
    generate_rules sampleDf "France" (1/2) (1/2) 1 =
      generate_rules sampleDf "France" (1/2) (1/2) 1 :=
  generate_rules_deterministic sampleDf sampleDf "France" "France"
    (1/2) (1/2) (1/2) (1/2) 1 1 rfl rfl rfl rfl rfl

/-- Claim C7 counterexample: `generate_rules` performs no threshold
validation.  With `min_conf = 2` (outside (0,1)) and `min_lift = -1`
(negative) the call is not rejected: the pipeline runs and returns an
ordinary (here empty, since no rule has confidence at least 2) table. -/
theorem generate_rules_no_threshold_validation :
    ¬ ((2:ℚ) < 1) ∧ ¬ ((0:ℚ) ≤ -1) ∧
      generate_rules sampleDf "France" (1/2) 2 (-1) = Except.ok [] :=
  ⟨by norm_num, by norm_num, by with_unfolding_all rfl⟩

/-- Claim C7 amended: the only input configuration that produces an error is
a non-positive `min_sup`, rejected inside the delegated mining call
(mlxtend's `fpgrowth` raises `ValueError` for it) rather than by a
validation step of `generate_rules`; every other threshold value —
including `min_sup > 1`, `min_conf` outside (0,1) and negative
`min_lift` — is accepted and acts only as a filter. -/
theorem generate_rules_error_iff_nonpos_support (df : List Record)
    (c : String) (s cf l : ℚ) :
    (∃ e, generate_rules df c s cf l = Except.error e) ↔ s ≤ 0 := by
  unfold generate_rules
  constructor
  · rintro ⟨e, he⟩
    by_contra hs
    rw [if_neg hs] at he
    by_cases hemp : (fpgrowth (transactionize (scopeCountry df c)) s).isEmpty = true
    · rw [if_pos hemp] at he
      exact Except.noConfusion he
    · rw [if_neg hemp] at he
      exact Except.noConfusion he
  · intro hs
    exact ⟨_, by rw [if_pos hs]⟩

/-- Claim C1: every rule in the table returned by `generate_rules` under a
valid threshold triple has confidence at least `min_conf`, lift at
least `min_lift`, and the support of its underlying itemset (its
antecedent and consequent items together) at least `min_sup`. -/
theorem generate_rules_respects_thresholds (df : List Record) (country : String)
    (min_sup min_conf min_lift : ℚ) (rules : List RuleRow)
    (hs0 : 0 < min_sup) (hs1 : min_sup < 1)
    (hc0 : 0 < min_conf) (hc1 : min_conf < 1) (hl0 : 0 ≤ min_lift)
    (h : generate_rules df country min_sup min_conf min_lift = Except.ok rules) :
    ∀ r ∈ rules, min_conf ≤ r.confidence ∧ min_lift ≤ r.lift ∧
      min_sup ≤ support (transactionize (scopeCountry df country))
        (r.antecedents ++ r.consequents) := by
  intro r hr
  unfold generate_rules at h
  rw [if_neg (not_le.mpr hs0)] at h
  by_cases hemp :
      (fpgrowth (transactionize (scopeCountry df country)) min_sup).isEmpty = true
  · rw [if_pos hemp] at h
    injection h with h
    subst h
    simp at hr
  · rw [if_neg hemp] at h
    injection h with h
    subst h
    have hr1 := (List.perm_insertionSort ruleOrd _).mem_iff.mp hr
    obtain ⟨r₀, hr₀, rfl⟩ := List.mem_map.mp hr1
    obtain ⟨hr₀', hconf⟩ := List.mem_filter.mp hr₀
    unfold association_rules at hr₀'
    obtain ⟨hr₀'', hlift⟩ := List.mem_filter.mp hr₀'
    unfold candidateRules at hr₀''
    obtain ⟨s, hsfreq, hr₀s⟩ := List.mem_flatMap.mp hr₀''
    obtain ⟨a, ha, rfl⟩ := List.mem_map.mp hr₀s
    unfold fpgrowth at hsfreq
    obtain ⟨hssub, hspred⟩ := List.mem_filter.mp hsfreq
    rw [Bool.and_eq_true] at hspred
    have hsup := of_decide_eq_true hspred.2
    obtain ⟨hasub, _⟩ := List.mem_filter.mp ha
    have hasl : a.Sublist s := List.mem_sublists.mp hasub
    refine ⟨of_decide_eq_true hconf, of_decide_eq_true hlift, ?_⟩
    have hmem : ∀ x, x ∈ (addDisplay (mkRule (transactionize (scopeCountry df country)) s a)).antecedents ++
        (addDisplay (mkRule (transactionize (scopeCountry df country)) s a)).consequents ↔ x ∈ s := by
      intro x
      show x ∈ a ++ s.filter (fun x => !(decide (x ∈ a))) ↔ x ∈ s
      constructor
      · intro hx
        rcases List.mem_append.mp hx with hx | hx
        · exact hasl.subset hx
        · exact (List.mem_filter.mp hx).1
      · intro hx
        by_cases hxa : x ∈ a
        · exact List.mem_append.mpr (Or.inl hxa)
        · exact List.mem_append.mpr (Or.inr (List.mem_filter.mpr ⟨hx, by simp [hxa]⟩))
    rw [support_congr _ _ _ hmem]
    exact hsup

/-- Closed witness for `generate_rules_respects_thresholds` on
`sampleDf`. -/
theorem generate_rules_respects_thresholds_witness :
    (1:ℚ)/2 ≤ rowBA.confidence ∧ (1:ℚ) ≤ rowBA.lift ∧
      (1:ℚ)/2 ≤ support (transactionize (scopeCountry sampleDf "France"))
        (rowBA.antecedents ++ rowBA.consequents) :=
  generate_rules_respects_thresholds sampleDf "France" (1/2) (1/2) 1
    [rowBA, rowAB] (by norm_num) (by norm_num) (by norm_num) (by norm_num)
    (by norm_num) (by with_unfolding_all rfl) rowBA (List.mem_cons_self _ _)

/-- Claim C2: the returned rule table is sorted by lift descending with ties
broken by confidence descending: every adjacent pair (r1, r2) has
r1.lift > r2.lift, or equal lifts and r1.confidence at least
r2.confidence. -/
theorem generate_rules_sorted (df : List Record) (c : String) (s cf l : ℚ)
    (rules : List RuleRow)
    (h : generate_rules df c s cf l = Except.ok rules) :
    List.Chain' (fun r1 r2 => r2.lift < r1.lift ∨
      (r1.lift = r2.lift ∧ r2.confidence ≤ r1.confidence)) rules := by
  unfold generate_rules at h
  by_cases hs : s ≤ 0
  · rw [if_pos hs] at h
    exact Except.noConfusion h
  · rw [if_neg hs] at h
    by_cases hemp : (fpgrowth (transactionize (scopeCountry df c)) s).isEmpty = true
    · rw [if_pos hemp] at h
      injection h with h
      subst h
      exact List.chain'_nil
    · rw [if_neg hemp] at h
      injection h with h
      subst h
      exact (List.sorted_insertionSort ruleOrd _).chain'

/-- Closed witness for `generate_rules_sorted` on `sampleDf`. -/
theorem generate_rules_sorted_witness :
    List.Chain' (fun r1 r2 => r2.lift < r1.lift ∨
      (r1.lift = r2.lift ∧ r2.confidence ≤ r1.confidence)) [rowBA, rowAB] :=
  generate_rules_sorted sampleDf "France" (1/2) (1/2) 1 [rowBA, rowAB]
    (by with_unfolding_all rfl)

/-- Claim C4: raising the thresholds never increases the number of returned
rules.  Stated with all three thresholds raised simultaneously
(`s ≤ s'`, `cf ≤ cf'`, `l ≤ l'`); instantiating two of the three
inequalities reflexively yields each one-at-a-time monotonicity of the
claim. -/
theorem generate_rules_monotone (df : List Record) (c : String)
    (s s' cf cf' l l' : ℚ) (rules rules' : List RuleRow)
    (hs0 : 0 < s) (hs : s ≤ s') (hcf : cf ≤ cf') (hl : l ≤ l')
    (h : generate_rules df c s cf l = Except.ok rules)
    (h' : generate_rules df c s' cf' l' = Except.ok rules') :
    rules'.length ≤ rules.length := by
  have hs0' : 0 < s' := lt_of_lt_of_le hs0 hs
  unfold generate_rules at h h'
  rw [if_neg (not_le.mpr hs0)] at h
  rw [if_neg (not_le.mpr hs0')] at h'
  have hsub : (fpgrowth (transactionize (scopeCountry df c)) s').Sublist
      (fpgrowth (transactionize (scopeCountry df c)) s) := fpgrowth_anti _ hs
  by_cases hemp' :
      (fpgrowth (transactionize (scopeCountry df c)) s').isEmpty = true
  · rw [if_pos hemp'] at h'
    injection h' with h'
    subst h'
    simp
  · have hemp : ¬ (fpgrowth (transactionize (scopeCountry df c)) s).isEmpty = true := by
      intro hcon
      apply hemp'
      rw [List.isEmpty_iff] at hcon ⊢
      rw [hcon] at hsub
      exact List.sublist_nil.mp hsub
    rw [if_neg hemp'] at h'
    rw [if_neg hemp] at h
    injection h with h
    injection h' with h'
    subst h h'
    rw [(List.perm_insertionSort ruleOrd _).length_eq,
      (List.perm_insertionSort ruleOrd _).length_eq,
      List.length_map, List.length_map]
    apply List.Sublist.length_le
    have h1 : (association_rules (transactionize (scopeCountry df c))
        (fpgrowth (transactionize (scopeCountry df c)) s') l').Sublist
        (association_rules (transactionize (scopeCountry df c))
          (fpgrowth (transactionize (scopeCountry df c)) s) l) := by
      unfold association_rules
      exact (List.monotone_filter_right _ (fun a hpa =>
        decide_eq_true (le_trans hl (of_decide_eq_true hpa)))).trans
        ((candidateRules_mono _ hsub).filter _)
    exact (List.monotone_filter_right _ (fun a hpa =>
      decide_eq_true (le_trans hcf (of_decide_eq_true hpa)))).trans
      (h1.filter _)

/-- Closed witness for `generate_rules_monotone`: raising `min_sup`
from 1/2 to 3/4 on `sampleDf` shrinks the table from two rules to
none. -/
theorem generate_rules_monotone_witness :
    ([] : List RuleRow).length ≤ [rowBA, rowAB].length :=
  generate_rules_monotone sampleDf "France" (1/2) (3/4) (1/2) (1/2) 1 1
    [rowBA, rowAB] [] (by norm_num) (by norm_num) (by norm_num) (by norm_num)
    (by with_unfolding_all rfl) (by with_unfolding_all rfl)
